import Mathlib

/-!
Verification development for the family-tree canvas gesture core
(`src/InteractiveCanvas.tsx`, desktop `PersonNode`, and the mobile app in
`mobile/mobile-app.js`).  Coordinates are modelled as rationals; JavaScript
numbers are treated as exact arithmetic, which is faithful for the algebraic
and state-machine properties considered here.
-/

/-- A 2D point, screen or world space depending on context. -/
@[ext]
structure Point where
  x : ℚ
  y : ℚ
deriving DecidableEq, Repr

/-- Componentwise subtraction of points. -/
def Point.sub (a b : Point) : Point := ⟨a.x - b.x, a.y - b.y⟩

/-- The interaction mode selected by the application.  `addPerson` is the
desktop `add-person` className and the mobile `add` mode. -/
inductive Mode
  | navigate
  | addPerson
  | connect
deriving DecidableEq, Repr

/-- The view transform: `zoom` and `pan` state of `InteractiveCanvas`. -/
@[ext]
structure View where
  zoom : ℚ
  pan : Point
deriving DecidableEq, Repr

/-- `Math.max(0.1, Math.min(3, z))` — the zoom clamp used by `handleWheel`
and the pinch branch of `handleTouchMove`. -/
def clampZoom (z : ℚ) : ℚ := max (1/10) (min 3 z)

/-- The zoom-about-a-point update shared by `handleWheel` (lines 49-59) and
the pinch branch of `handleTouchMove` (lines 214-232): clamp the new zoom and
recompute pan by `pan - (p - pan) * (newZoom - zoom) / zoom`. -/
def zoomAtPoint (p : Point) (factor : ℚ) (v : View) : View :=
  let newZoom := clampZoom (v.zoom * factor)
  let deltaZoom := newZoom - v.zoom
  { zoom := newZoom
    pan := ⟨v.pan.x - (p.x - v.pan.x) * (deltaZoom / v.zoom),
            v.pan.y - (p.y - v.pan.y) * (deltaZoom / v.zoom)⟩ }

/-- `toWorld(screenPoint, view) = (screenPoint - view.pan) / view.zoom`,
the formula used by the canvas add-person tap handlers and by
`screenToCanvasCoords` in `PersonNode`. -/
def toWorld (s : Point) (v : View) : Point :=
  ⟨(s.x - v.pan.x) / v.zoom, (s.y - v.pan.y) / v.zoom⟩

/-- The inverse transform, realised by the CSS
`translate(pan) scale(zoom)` on `canvas-content`. -/
def toScreen (w : Point) (v : View) : Point :=
  ⟨w.x * v.zoom + v.pan.x, w.y * v.zoom + v.pan.y⟩

/-- State of `InteractiveCanvas`: `zoom`, `pan`, `isPanning`, `isTouch`,
`lastPanPoint`, `lastTouchDistance`. -/
structure CanvasState where
  zoom : ℚ
  pan : Point
  isPanning : Bool
  isTouch : Bool
  lastPanPoint : Point
  lastTouchDistance : ℚ
deriving DecidableEq, Repr

/-- The view part of the canvas state. -/
def CanvasState.view (s : CanvasState) : View := ⟨s.zoom, s.pan⟩

/-- Replace the view part of the canvas state. -/
def CanvasState.withView (s : CanvasState) (v : View) : CanvasState :=
  { s with zoom := v.zoom, pan := v.pan }

/-- Initial canvas state: `zoom = 1`, `pan = (0,0)`. -/
def initialCanvas : CanvasState := ⟨1, ⟨0, 0⟩, false, false, ⟨0, 0⟩, 0⟩

/-- Semantic callbacks emitted by the canvas (`onCanvasClick`). -/
inductive CanvasEffect
  | canvasClick (world : Point)
deriving DecidableEq, Repr

/-- Raw input events consumed by `InteractiveCanvas`.  Events carry the data
the handlers read from the DOM event: client coordinates, the bounding-rect
origin of the canvas element, target classification booleans, and — for
two-finger events — the inter-finger Euclidean distance (computed by
`getTouchDistance`) and midpoint (computed by `getTouchCenter`). -/
inductive CanvasEvent
  | wheel (ctrlOrMeta : Bool) (delta : Point) (client : Point) (rectOrigin : Point)
  | mouseDown (button : Nat) (alt : Bool) (client : Point) (targetIsCanvas : Bool)
      (targetInteractive : Bool) (mode : Mode) (hasCallback : Bool)
      (disableCanvasClick : Bool) (rectOrigin : Point)
  | mouseMove (client : Point)
  | mouseUp
  | touchStart1 (touch : Point) (targetIsCanvas : Bool) (mode : Mode)
      (hasCallback : Bool) (rectOrigin : Point)
  | touchStart2 (dist : ℚ) (center : Point)
  | touchMove1 (touch : Point)
  | touchMove2 (dist : ℚ) (center : Point) (rectOrigin : Point)
  | touchEndTo0
  | touchEndTo1 (touch : Point)
  | zoomInBtn
  | zoomOutBtn
  | resetViewBtn
  | returnToOriginBtn
deriving DecidableEq, Repr

/-- One step of the `InteractiveCanvas` event handlers, returning the new
state and the emitted callbacks.  Translated branch for branch from
`handleWheel`, `handleMouseDown/Move/Up`, `handleTouchStart/Move/End`,
`zoomIn`, `zoomOut`, `resetView`, `returnToOrigin`. -/
def canvasStep (e : CanvasEvent) (s : CanvasState) : CanvasState × List CanvasEffect :=
  match e with
  | .wheel ctrl delta client o =>
    if ctrl then
      ({ s with pan := ⟨s.pan.x - delta.x, s.pan.y - delta.y⟩ }, [])
    else
      let factor : ℚ := if 0 < delta.y then 9/10 else 11/10
      (s.withView (zoomAtPoint (Point.sub client o) factor s.view), [])
  | .mouseDown button alt client targetIsCanvas targetInteractive mode hasCallback dis o =>
    if button = 1 ∨ (button = 0 ∧ alt = true) then
      ({ s with isPanning := true, lastPanPoint := client }, [])
    else if button = 0 ∧ dis = false then
      if targetIsCanvas = false then (s, [])
      else if targetInteractive = true then (s, [])
      else if hasCallback = true ∧ mode = Mode.addPerson then
        (s, [CanvasEffect.canvasClick (toWorld (Point.sub client o) s.view)])
      else if mode = Mode.navigate then
        ({ s with isPanning := true, lastPanPoint := client }, [])
      else (s, [])
    else (s, [])
  | .mouseMove client =>
    if s.isPanning then
      ({ s with
          pan := ⟨s.pan.x + (client.x - s.lastPanPoint.x) * (7/10),
                  s.pan.y + (client.y - s.lastPanPoint.y) * (7/10)⟩
          lastPanPoint := client }, [])
    else (s, [])
  | .mouseUp => ({ s with isPanning := false }, [])
  | .touchStart1 touch targetIsCanvas mode hasCallback o =>
    let s1 := { s with isTouch := true }
    if targetIsCanvas = false then (s1, [])
    else if hasCallback = true ∧ mode = Mode.addPerson then
      (s1, [CanvasEffect.canvasClick (toWorld (Point.sub touch o) s.view)])
    else
      ({ s1 with isPanning := true, lastPanPoint := touch }, [])
  | .touchStart2 dist center =>
    ({ s with
        isTouch := true
        isPanning := false
        lastTouchDistance := dist
        lastPanPoint := center }, [])
  | .touchMove1 touch =>
    if s.isPanning then
      ({ s with
          pan := ⟨s.pan.x + (touch.x - s.lastPanPoint.x),
                  s.pan.y + (touch.y - s.lastPanPoint.y)⟩
          lastPanPoint := touch }, [])
    else (s, [])
  | .touchMove2 dist center o =>
    let s2 :=
      if 0 < s.lastTouchDistance then
        s.withView (zoomAtPoint (Point.sub center o) (dist / s.lastTouchDistance) s.view)
      else s
    ({ s2 with
        lastTouchDistance := dist
        lastPanPoint := center }, [])
  | .touchEndTo0 =>
    ({ s with
        isPanning := false
        isTouch := false
        lastTouchDistance := 0 }, [])
  | .touchEndTo1 touch =>
    ({ s with
        lastPanPoint := touch
        lastTouchDistance := 0 }, [])
  | .zoomInBtn => ({ s with zoom := min 3 (s.zoom * (6/5)) }, [])
  | .zoomOutBtn => ({ s with zoom := max (1/10) (s.zoom / (6/5)) }, [])
  | .resetViewBtn =>
    ({ s with
        zoom := 1
        pan := ⟨0, 0⟩ }, [])
  | .returnToOriginBtn =>
    ({ s with
        zoom := 1
        pan := ⟨0, 0⟩ }, [])

/-- Run a sequence of canvas events from the initial state. -/
def runCanvas (es : List CanvasEvent) : CanvasState :=
  es.foldl (fun s e => (canvasStep e s).1) initialCanvas

lemma clampZoom_pos (z : ℚ) : 0 < clampZoom z := by
  have h : (1/10 : ℚ) ≤ clampZoom z := le_max_left _ _
  linarith

lemma zoomAtPoint_world (p : Point) (f : ℚ) (v : View) (hz : 0 < v.zoom) :
    toWorld p (zoomAtPoint p f v) = toWorld p v := by
  have hz' : 0 < clampZoom (v.zoom * f) := clampZoom_pos _
  simp only [zoomAtPoint, toWorld, Point.mk.injEq]
  constructor
  · field_simp
    ring
  · field_simp
    ring

lemma clampZoom_ge (z : ℚ) : 1/10 ≤ clampZoom z := le_max_left _ _

lemma clampZoom_le (z : ℚ) : clampZoom z ≤ 3 :=
  max_le (by norm_num) (min_le_left _ _)

/-- Claim C1: zoom-to-point invariance.  With the new zoom
`z' = clamp(z*f, 0.1, 3.0)` in range (so that the clamp is the identity),
`zoomAt(p, f)` sets the zoom to `z*f`, updates pan to
`pan - (p - pan) * (z' - z) / z`, and the world point under `p` is the same
before and after; this holds for the wheel-zoom handler and for the
pinch-zoom branch of the touch-move handler alike. -/
theorem c1_zoom_to_point_invariance (p : Point) (f : ℚ) (v : View)
    (hz : 0 < v.zoom) (h1 : 1/10 ≤ v.zoom * f) (h2 : v.zoom * f ≤ 3) :
    (zoomAtPoint p f v).zoom = v.zoom * f
    ∧ (zoomAtPoint p f v).pan.x
        = v.pan.x - (p.x - v.pan.x) * ((v.zoom * f - v.zoom) / v.zoom)
    ∧ (zoomAtPoint p f v).pan.y
        = v.pan.y - (p.y - v.pan.y) * ((v.zoom * f - v.zoom) / v.zoom)
    ∧ toWorld p (zoomAtPoint p f v) = toWorld p v
    ∧ (∀ (s : CanvasState) (delta client o : Point), 0 < s.zoom →
        toWorld (Point.sub client o)
            ((canvasStep (CanvasEvent.wheel false delta client o) s).1.view)
          = toWorld (Point.sub client o) s.view)
    ∧ (∀ (s : CanvasState) (d : ℚ) (center o : Point), 0 < s.zoom →
        toWorld (Point.sub center o)
            ((canvasStep (CanvasEvent.touchMove2 d center o) s).1.view)
          = toWorld (Point.sub center o) s.view) := by
  have hclamp : clampZoom (v.zoom * f) = v.zoom * f := by
    unfold clampZoom
    rw [min_eq_right h2, max_eq_right h1]
  refine ⟨?_, ?_, ?_, zoomAtPoint_world p f v hz, ?_, ?_⟩
  · simp [zoomAtPoint, hclamp]
  · simp [zoomAtPoint, hclamp]
  · simp [zoomAtPoint, hclamp]
  · intro s delta client o hs
    simp only [canvasStep, Bool.false_eq_true, if_false]
    exact zoomAtPoint_world _ _ _ hs
  · intro s d center o hs
    simp only [canvasStep]
    split_ifs with hlt
    · exact zoomAtPoint_world _ _ _ hs
    · rfl

theorem c1_witness :
    (0:ℚ) < 1 ∧ (1:ℚ)/10 ≤ 1 * (11/10) ∧ (1:ℚ) * (11/10) ≤ 3
    ∧ (zoomAtPoint ⟨400, 300⟩ (11/10) ⟨1, ⟨0, 0⟩⟩).zoom = 1 * (11/10)
    ∧ toWorld ⟨400, 300⟩ (zoomAtPoint ⟨400, 300⟩ (11/10) ⟨1, ⟨0, 0⟩⟩)
        = toWorld ⟨400, 300⟩ ⟨1, ⟨0, 0⟩⟩ := by
  have h := c1_zoom_to_point_invariance ⟨400, 300⟩ (11/10) ⟨1, ⟨0, 0⟩⟩
    (by norm_num) (by norm_num) (by norm_num)
  exact ⟨by norm_num, by norm_num, by norm_num, h.1, h.2.2.2.1⟩

lemma canvasStep_zoom_range (e : CanvasEvent) (s : CanvasState)
    (h1 : 1/10 ≤ s.zoom) (h2 : s.zoom ≤ 3) :
    1/10 ≤ (canvasStep e s).1.zoom ∧ (canvasStep e s).1.zoom ≤ 3 := by
  cases e with
  | wheel ctrl delta client o =>
    simp only [canvasStep]
    split_ifs <;> first
      | exact ⟨h1, h2⟩
      | exact ⟨clampZoom_ge _, clampZoom_le _⟩
  | mouseDown button alt client tc ti mode hc dis o =>
    simp only [canvasStep]
    split_ifs <;> exact ⟨h1, h2⟩
  | mouseMove client =>
    simp only [canvasStep]
    split_ifs <;> exact ⟨h1, h2⟩
  | mouseUp => exact ⟨h1, h2⟩
  | touchStart1 touch tc mode hc o =>
    simp only [canvasStep]
    split_ifs <;> exact ⟨h1, h2⟩
  | touchStart2 d c => exact ⟨h1, h2⟩
  | touchMove1 touch =>
    simp only [canvasStep]
    split_ifs <;> exact ⟨h1, h2⟩
  | touchMove2 d c o =>
    simp only [canvasStep]
    split_ifs with hlt
    · exact ⟨clampZoom_ge _, clampZoom_le _⟩
    · exact ⟨h1, h2⟩
  | touchEndTo0 => exact ⟨h1, h2⟩
  | touchEndTo1 touch => exact ⟨h1, h2⟩
  | zoomInBtn =>
    exact ⟨le_min (by norm_num) (by linarith), min_le_left _ _⟩
  | zoomOutBtn =>
    refine ⟨le_max_left _ _, max_le (by norm_num) ?_⟩
    rw [div_le_iff₀ (by norm_num : (0:ℚ) < 6/5)]
    linarith
  | resetViewBtn => constructor <;> norm_num [canvasStep]
  | returnToOriginBtn => constructor <;> norm_num [canvasStep]

lemma foldl_zoom_range (es : List CanvasEvent) (s : CanvasState)
    (h1 : 1/10 ≤ s.zoom) (h2 : s.zoom ≤ 3) :
    1/10 ≤ (es.foldl (fun a e => (canvasStep e a).1) s).zoom
    ∧ (es.foldl (fun a e => (canvasStep e a).1) s).zoom ≤ 3 := by
  induction es generalizing s with
  | nil => exact ⟨h1, h2⟩
  | cons e es ih =>
    simp only [List.foldl_cons]
    have h := canvasStep_zoom_range e s h1 h2
    exact ih _ h.1 h.2

/-- Claim C2: zoom clamp invariant.  Starting from the initial view
(`zoom = 1`), after every sequence of canvas events — in particular wheel
zoom, pinch zoom, the zoom-in and zoom-out buttons and `resetView` — the
zoom stays inside the closed interval `[0.1, 3.0]`. -/
theorem c2_zoom_clamp (es : List CanvasEvent) :
    1/10 ≤ (runCanvas es).zoom ∧ (runCanvas es).zoom ≤ 3 :=
  foldl_zoom_range es initialCanvas (by norm_num [initialCanvas]) (by norm_num [initialCanvas])

/-- Claim C6, counterexample.  From the initial view, pressing the zoom-in
button multiplies the zoom by 1.2 but leaves `pan = (0,0)` untouched, so the
world point under the viewport center `(400,300)` is NOT preserved —
`zoomIn` is not equivalent to `zoomAt(viewportCenter, 1.2)`. -/
theorem c6_counterexample :
    (runCanvas [CanvasEvent.zoomInBtn]).zoom = 6/5
    ∧ (runCanvas [CanvasEvent.zoomInBtn]).pan = ⟨0, 0⟩
    ∧ toWorld ⟨400, 300⟩ (runCanvas [CanvasEvent.zoomInBtn]).view
        ≠ toWorld ⟨400, 300⟩ (runCanvas []).view := by
  refine ⟨?_, rfl, ?_⟩
  · norm_num [runCanvas, canvasStep, initialCanvas, min_def]
  · intro h
    have hx := congrArg Point.x h
    norm_num [runCanvas, canvasStep, initialCanvas, toWorld,
      CanvasState.view, min_def] at hx

/-- Claim C6, amended: the zoom-in and zoom-out buttons only multiply or
divide the zoom by 1.2 (clamped to `[0.1, 3.0]`) and never touch pan.  For a
zoom already in range they coincide with `zoomAt` taken at the screen point
`pan` — the point where the world origin sits — not at the viewport center. -/
theorem c6_zoom_step_amended (s : CanvasState) (h1 : 1/10 ≤ s.zoom) (h2 : s.zoom ≤ 3) :
    (canvasStep CanvasEvent.zoomInBtn s).1.zoom = min 3 (s.zoom * (6/5))
    ∧ (canvasStep CanvasEvent.zoomInBtn s).1.pan = s.pan
    ∧ (canvasStep CanvasEvent.zoomInBtn s).1.view = zoomAtPoint s.pan (6/5) s.view
    ∧ (canvasStep CanvasEvent.zoomOutBtn s).1.zoom = max (1/10) (s.zoom / (6/5))
    ∧ (canvasStep CanvasEvent.zoomOutBtn s).1.pan = s.pan
    ∧ (canvasStep CanvasEvent.zoomOutBtn s).1.view = zoomAtPoint s.pan (5/6) s.view := by
  have hin : clampZoom (s.zoom * (6/5)) = min 3 (s.zoom * (6/5)) := by
    unfold clampZoom
    rw [max_eq_right (le_min (by norm_num) (by linarith))]
  have hout : clampZoom (s.zoom * (5/6)) = max (1/10) (s.zoom * (5/6)) := by
    unfold clampZoom
    rw [min_eq_right (by linarith)]
  have hdiv : s.zoom / (6/5) = s.zoom * (5/6) := by ring
  refine ⟨rfl, rfl, ?_, rfl, rfl, ?_⟩
  · ext <;> simp only [canvasStep, CanvasState.view, zoomAtPoint]
    · exact hin.symm
    · ring
    · ring
  · ext <;> simp only [canvasStep, CanvasState.view, zoomAtPoint]
    · rw [hdiv, hout]
    · ring
    · ring

theorem c6_witness :
    (1:ℚ)/10 ≤ 1 ∧ (1:ℚ) ≤ 3
    ∧ (canvasStep CanvasEvent.zoomInBtn initialCanvas).1.pan = initialCanvas.pan
    ∧ (canvasStep CanvasEvent.zoomInBtn initialCanvas).1.view
        = zoomAtPoint initialCanvas.pan (6/5) initialCanvas.view := by
  have h := c6_zoom_step_amended initialCanvas
    (by norm_num [initialCanvas]) (by norm_num [initialCanvas])
  exact ⟨by norm_num, by norm_num, h.2.1, h.2.2.1⟩

/-- Claim C7: in add-person mode a tap on empty canvas at screen point `s`
emits the place-person callback at the world point `(s - pan) / zoom`, for
both the touch and the mouse handler; the world point is the genuine
preimage of the tapped screen point under the view transform, and the
concrete tap at `(220,140)` with `pan = (50,50)`, `zoom = 2` yields
`onCanvasTap(85, 45)`. -/
theorem c7_add_person_tap :
    (∀ (s : CanvasState) (touch o : Point),
      (canvasStep (CanvasEvent.touchStart1 touch true Mode.addPerson true o) s).2
        = [CanvasEffect.canvasClick (toWorld (Point.sub touch o) s.view)])
    ∧ (∀ (s : CanvasState) (client o : Point),
      (canvasStep (CanvasEvent.mouseDown 0 false client true false Mode.addPerson true false o) s).2
        = [CanvasEffect.canvasClick (toWorld (Point.sub client o) s.view)])
    ∧ (∀ (p : Point) (v : View), v.zoom ≠ 0 → toScreen (toWorld p v) v = p)
    ∧ (canvasStep (CanvasEvent.touchStart1 ⟨220, 140⟩ true Mode.addPerson true ⟨0, 0⟩)
          ⟨2, ⟨50, 50⟩, false, false, ⟨0, 0⟩, 0⟩).2
        = [CanvasEffect.canvasClick ⟨85, 45⟩] := by
  refine ⟨?_, ?_, ?_, ?_⟩
  · intro s touch o
    simp [canvasStep]
  · intro s client o
    simp [canvasStep]
  · intro p v hv
    ext <;> simp only [toScreen, toWorld] <;> field_simp
  · norm_num [canvasStep, toWorld, Point.sub, CanvasState.view, Point.mk.injEq]

theorem c7_witness :
    ((2:ℚ) ≠ 0)
    ∧ toScreen (toWorld ⟨220, 140⟩ ⟨2, ⟨50, 50⟩⟩) ⟨2, ⟨50, 50⟩⟩ = ⟨220, 140⟩
    ∧ (canvasStep (CanvasEvent.touchStart1 ⟨220, 140⟩ true Mode.addPerson true ⟨0, 0⟩)
          ⟨2, ⟨50, 50⟩, false, false, ⟨0, 0⟩, 0⟩).2
        = [CanvasEffect.canvasClick ⟨85, 45⟩] := by
  have h := c7_add_person_tap
  exact ⟨by norm_num, h.2.2.1 ⟨220, 140⟩ ⟨2, ⟨50, 50⟩⟩ (by norm_num), h.2.2.2⟩

lemma touchMove2_skip (s : CanvasState) (d : ℚ) (c o : Point)
    (h : ¬ 0 < s.lastTouchDistance) :
    (canvasStep (CanvasEvent.touchMove2 d c o) s).1.zoom = s.zoom
    ∧ (canvasStep (CanvasEvent.touchMove2 d c o) s).1.pan = s.pan
    ∧ (canvasStep (CanvasEvent.touchMove2 d c o) s).1.lastTouchDistance = d := by
  simp only [canvasStep]
  rw [if_neg h]
  exact ⟨rfl, rfl, trivial⟩

/-- Claim C10, counterexample.  A pinch start stores the actual inter-finger
distance (here 100), so the FIRST two-finger move after the pinch start
already applies the zoom: with the fingers spreading to distance 200 the
zoom jumps from 1 to 2, contradicting the part of the claim stating that the
first two-finger move after pinch start (before a second move) leaves zoom
and pan unchanged. -/
theorem c10_counterexample :
    (runCanvas [CanvasEvent.touchStart2 100 ⟨50, 0⟩]).lastTouchDistance = 100
    ∧ (runCanvas [CanvasEvent.touchStart2 100 ⟨50, 0⟩]).zoom = 1
    ∧ (runCanvas [CanvasEvent.touchStart2 100 ⟨50, 0⟩,
        CanvasEvent.touchMove2 200 ⟨100, 0⟩ ⟨0, 0⟩]).zoom = 2 := by
  refine ⟨rfl, rfl, ?_⟩
  norm_num [runCanvas, canvasStep, initialCanvas, CanvasState.withView,
    CanvasState.view, zoomAtPoint, clampZoom, Point.sub, min_def, max_def]

/-- Claim C10, amended: the pinch handler divides by the stored previous
distance only when it is strictly positive — when the stored distance is not
positive a two-finger move leaves zoom and pan unchanged and merely stores
the new distance; the stored distance is reset to 0 whenever the touch count
drops to 1 or 0, so the first two-finger move after such a reset leaves zoom
and pan unchanged.  (A pinch start stores the actual inter-finger distance,
so when that is positive the first subsequent move already zooms.) -/
theorem c10_pinch_guard_amended (s : CanvasState) (d : ℚ) (c o pt : Point)
    (h : ¬ 0 < s.lastTouchDistance) :
    ((canvasStep (CanvasEvent.touchMove2 d c o) s).1.zoom = s.zoom
      ∧ (canvasStep (CanvasEvent.touchMove2 d c o) s).1.pan = s.pan
      ∧ (canvasStep (CanvasEvent.touchMove2 d c o) s).1.lastTouchDistance = d)
    ∧ (canvasStep CanvasEvent.touchEndTo0 s).1.lastTouchDistance = 0
    ∧ (canvasStep (CanvasEvent.touchEndTo1 pt) s).1.lastTouchDistance = 0
    ∧ ((canvasStep (CanvasEvent.touchMove2 d c o)
          ((canvasStep (CanvasEvent.touchEndTo1 pt) s).1)).1.zoom
        = (canvasStep (CanvasEvent.touchEndTo1 pt) s).1.zoom
      ∧ (canvasStep (CanvasEvent.touchMove2 d c o)
          ((canvasStep (CanvasEvent.touchEndTo1 pt) s).1)).1.pan
        = (canvasStep (CanvasEvent.touchEndTo1 pt) s).1.pan)
    ∧ ((canvasStep (CanvasEvent.touchMove2 d c o)
          ((canvasStep CanvasEvent.touchEndTo0 s).1)).1.zoom
        = (canvasStep CanvasEvent.touchEndTo0 s).1.zoom
      ∧ (canvasStep (CanvasEvent.touchMove2 d c o)
          ((canvasStep CanvasEvent.touchEndTo0 s).1)).1.pan
        = (canvasStep CanvasEvent.touchEndTo0 s).1.pan) := by
  have hskip := touchMove2_skip s d c o h
  have h1 : ¬ 0 < ((canvasStep (CanvasEvent.touchEndTo1 pt) s).1).lastTouchDistance := by
    simp [canvasStep]
  have h0 : ¬ 0 < ((canvasStep CanvasEvent.touchEndTo0 s).1).lastTouchDistance := by
    simp [canvasStep]
  have hs1 := touchMove2_skip _ d c o h1
  have hs0 := touchMove2_skip _ d c o h0
  refine ⟨hskip, rfl, rfl, ?_, ?_⟩
  · exact ⟨hs1.1, hs1.2.1⟩
  · exact ⟨hs0.1, hs0.2.1⟩

theorem c10_witness :
    (¬ (0:ℚ) < 0)
    ∧ (canvasStep (CanvasEvent.touchMove2 150 ⟨10, 10⟩ ⟨0, 0⟩) initialCanvas).1.zoom
        = initialCanvas.zoom
    ∧ (canvasStep (CanvasEvent.touchMove2 150 ⟨10, 10⟩ ⟨0, 0⟩)
        ((canvasStep CanvasEvent.touchEndTo0 initialCanvas).1)).1.pan
        = (canvasStep CanvasEvent.touchEndTo0 initialCanvas).1.pan := by
  have h := c10_pinch_guard_amended initialCanvas 150 ⟨10, 10⟩ ⟨0, 0⟩ ⟨5, 5⟩
    (by norm_num [initialCanvas])
  exact ⟨by norm_num, h.1.1, h.2.2.2.2.2⟩

/-- A person record as far as the gesture core is concerned: `id` and the
world-space position `x`, `y`. -/
structure PersonR where
  id : String
  x : ℚ
  y : ℚ
deriving DecidableEq, Repr

/-- `Math.round` in JavaScript: `floor(q + 1/2)` (half-up, toward +∞). -/
def jsRound (q : ℚ) : ℤ := ⌊q + 1/2⌋

/-- Grid snapping used while dragging: `Math.round(v / 20) * 20`. -/
def snapToGrid (q : ℚ) : ℚ := (jsRound (q / 20) : ℚ) * 20

/-- State of the desktop `PersonNode` component.  `timerPending` records
that a scheduled `setTimeout` exists; `timerVar` records that the
`longPressTimer` state variable is non-null (the source clears the timeout
in `handleTouchStart` without nulling the variable, and the timer callback
fires without nulling it, so the two can differ).  `armedMode` is the
`interactionMode` captured by the timer callback closure when it was
armed. -/
structure NodeState where
  isDragging : Bool
  isConnecting : Bool
  isEditing : Bool
  dragStart : Point
  timerPending : Bool
  timerVar : Bool
  armedMode : Mode
  touchStartTime : ℚ
deriving DecidableEq, Repr

/-- A fresh node: all flags false. -/
def initialNode : NodeState := ⟨false, false, false, ⟨0, 0⟩, false, false, Mode.navigate, 0⟩

/-- A node together with its person prop (whose position the parent writes
back on `onPersonUpdate`). -/
structure NodeSim where
  node : NodeState
  person : PersonR
deriving DecidableEq, Repr

/-- Callbacks emitted by `PersonNode`. -/
inductive NodeEffect
  | select
  | connectionDrag (pid : String) (startPos currentPos : Point)
  | personUpdate (x y : ℚ)
  | connectionDragEnd
  | enterEdit
deriving DecidableEq, Repr

/-- Touch events reaching the desktop `PersonNode`, with the wall-clock time
`t` (the handlers read `Date.now()`), the touch point, the current
`interactionMode` prop, and — where the handler converts to world
coordinates — the view props and canvas rect origin.  For `nTouchEnd`,
`target` is the person id of the node found by
`document.elementFromPoint(...).closest('[data-person-id]')`, if any. -/
inductive NodeEvent
  | nTouchStart (t : ℚ) (touch : Point) (mode : Mode) (view : View) (rectOrigin : Point)
  | nTouchMove (t : ℚ) (touch : Point) (mode : Mode) (view : View) (rectOrigin : Point)
  | nTouchEnd (t : ℚ) (target : Option String) (mode : Mode)
  | nTimerFire
deriving DecidableEq, Repr

/-- Whether an event is a touch start (the only event that re-arms the
long-press timer). -/
def NodeEvent.isStart : NodeEvent → Bool
  | .nTouchStart _ _ _ _ _ => true
  | _ => false

/-- One step of the desktop `PersonNode` touch handlers
(`handleTouchStart`, `handleTouchMove`, `handleTouchEnd`) together with the
long-press timer callback (`nTimerFire`).  While `isEditing` the component
renders the edit form, which carries none of these handlers, so touch events
are no-ops.  Inside a single handler invocation React state reads see the
pre-event values — in particular the `if (isDragging)` branch of
`handleTouchMove` uses the value of `isDragging` from before this event. -/
def nodeStep (e : NodeEvent) (sim : NodeSim) : NodeSim × List NodeEffect :=
  match e with
  | .nTouchStart t touch mode view o =>
    if sim.node.isEditing then (sim, []) else
    let n0 := { sim.node with
        touchStartTime := t
        timerPending := false }
    if mode = Mode.connect then
      let center : Point := ⟨sim.person.x + 75, sim.person.y + 50⟩
      let cur := toWorld (Point.sub touch o) view
      ({ sim with node := { n0 with
            isConnecting := true
            dragStart := center } },
        [NodeEffect.connectionDrag sim.person.id center cur, NodeEffect.select])
    else
      ({ sim with node := { n0 with
            dragStart := ⟨touch.x - sim.person.x, touch.y - sim.person.y⟩
            timerPending := true
            timerVar := true
            armedMode := mode } },
        [NodeEffect.select])
  | .nTouchMove t touch mode view o =>
    if sim.node.isEditing then (sim, []) else
    let timeSince := t - sim.node.touchStartTime
    let dx := |touch.x - (sim.person.x + sim.node.dragStart.x)|
    let dy := |touch.y - (sim.person.y + sim.node.dragStart.y)|
    let n1 :=
      if sim.node.timerVar = true ∧ (10 < dx ∨ 10 < dy) then
        { sim.node with
            timerPending := false
            timerVar := false
            isDragging :=
              if timeSince < 200 ∧ (mode = Mode.navigate ∨ mode = Mode.addPerson)
              then true else sim.node.isDragging }
      else sim.node
    if sim.node.isDragging then
      let sx := snapToGrid (touch.x - sim.node.dragStart.x)
      let sy := snapToGrid (touch.y - sim.node.dragStart.y)
      ({ node := n1, person := { sim.person with x := sx, y := sy } },
        [NodeEffect.personUpdate sx sy])
    else if sim.node.isConnecting then
      ({ sim with node := n1 },
        [NodeEffect.connectionDrag sim.person.id sim.node.dragStart
          (toWorld (Point.sub touch o) view)])
    else ({ sim with node := n1 }, [])
  | .nTouchEnd t target mode =>
    if sim.node.isEditing then (sim, []) else
    let n0 :=
      if sim.node.timerVar = true then
        { sim.node with
            timerPending := false
            timerVar := false }
      else sim.node
    let duration := t - sim.node.touchStartTime
    if sim.node.isDragging then
      ({ sim with node := { n0 with isDragging := false } }, [])
    else if sim.node.isConnecting then
      let sel : List NodeEffect :=
        match target with
        | some tid => if tid ≠ sim.person.id then [NodeEffect.select] else []
        | none => []
      ({ sim with node := { n0 with isConnecting := false } },
        sel ++ [NodeEffect.connectionDragEnd])
    else if mode = Mode.connect ∧ duration < 200 then
      ({ sim with node := n0 }, [NodeEffect.select])
    else ({ sim with node := n0 }, [])
  | .nTimerFire =>
    if sim.node.timerPending = true then
      if sim.node.armedMode = Mode.navigate then
        ({ sim with node := { sim.node with
              timerPending := false
              isEditing := true } },
          [NodeEffect.enterEdit])
      else
        ({ sim with node := { sim.node with timerPending := false } }, [])
    else (sim, [])

/-- Run a sequence of node events, discarding effects. -/
def runNode (es : List NodeEvent) (sim : NodeSim) : NodeSim :=
  es.foldl (fun a e => (nodeStep e a).1) sim

/-- State of the mobile `MobilePersonNode` component.  Same conventions as
`NodeState`; the mobile component keeps no touch-start time. -/
structure MNodeState where
  isEditing : Bool
  isDragging : Bool
  timerPending : Bool
  timerVar : Bool
  dragStart : Point
deriving DecidableEq, Repr

/-- A fresh mobile node. -/
def initialMNode : MNodeState := ⟨false, false, false, false, ⟨0, 0⟩⟩

/-- A mobile node with its person prop. -/
structure MNodeSim where
  node : MNodeState
  person : PersonR
deriving DecidableEq, Repr

/-- Callbacks emitted by `MobilePersonNode`; `enterEdit` marks the
transition into the editing overlay made by the long-press callback. -/
inductive MNodeEffect
  | connectionStart (pid : String) (x y : ℚ)
  | personSelect (pid : String)
  | personUpdate (x y : ℚ)
  | enterEdit
deriving DecidableEq, Repr

/-- Touch events reaching `MobilePersonNode`.  The wall-clock timestamp `t`
is carried for specification purposes only: these handlers never read the
clock.  `connectionMode` is the boolean prop `mode === 'connect'` passed by
the app. -/
inductive MNodeEvent
  | mTouchStart (t : ℚ) (touch : Point) (connectionMode : Bool)
  | mTouchMove (t : ℚ) (touch : Point) (connectionMode : Bool)
  | mTouchEnd
  | mTimerFire
deriving DecidableEq, Repr

/-- The boolean `connectionMode` prop computed by the mobile app:
`mode === 'connect'`. -/
def connectionModeOf (m : Mode) : Bool := m == Mode.connect

/-- One step of the `MobilePersonNode` handlers (`handleTouchStart`,
`handleTouchMove`, `handleTouchEnd`) and its long-press timer callback.
While `isEditing` the node renders the `MobilePersonEditor` overlay, which
has none of these handlers, so touch events are no-ops.  The position-update
branch of `handleTouchMove` reads the pre-event `isDragging`, as in the
source. -/
def mNodeStep (e : MNodeEvent) (sim : MNodeSim) : MNodeSim × List MNodeEffect :=
  match e with
  | .mTouchStart _t touch connectionMode =>
    if sim.node.isEditing then (sim, []) else
    let n0 := { sim.node with timerPending := false }
    if connectionMode then
      ({ sim with node := n0 },
        [MNodeEffect.connectionStart sim.person.id (sim.person.x + 60) (sim.person.y + 30),
         MNodeEffect.personSelect sim.person.id])
    else
      ({ sim with node := { n0 with
            dragStart := ⟨touch.x - sim.person.x, touch.y - sim.person.y⟩
            timerPending := true
            timerVar := true } },
        [MNodeEffect.personSelect sim.person.id])
  | .mTouchMove _t touch connectionMode =>
    if sim.node.isEditing = true ∨ connectionMode = true then (sim, []) else
    let dx := |touch.x - (sim.person.x + sim.node.dragStart.x)|
    let dy := |touch.y - (sim.person.y + sim.node.dragStart.y)|
    let n1 :=
      if sim.node.timerVar = true ∧ (10 < dx ∨ 10 < dy) then
        { sim.node with
            timerPending := false
            timerVar := false
            isDragging := true }
      else sim.node
    if sim.node.isDragging then
      let sx := snapToGrid (max 0 (touch.x - sim.node.dragStart.x))
      let sy := snapToGrid (max 0 (touch.y - sim.node.dragStart.y))
      ({ node := n1, person := { sim.person with x := sx, y := sy } },
        [MNodeEffect.personUpdate sx sy])
    else ({ sim with node := n1 }, [])
  | .mTouchEnd =>
    if sim.node.isEditing then (sim, []) else
    let n0 :=
      if sim.node.timerVar = true then
        { sim.node with
            timerPending := false
            timerVar := false }
      else sim.node
    ({ sim with node := { n0 with isDragging := false } }, [])
  | .mTimerFire =>
    if sim.node.timerPending = true then
      ({ sim with node := { sim.node with
            timerPending := false
            timerVar := false
            isEditing := true } },
        [MNodeEffect.enterEdit])
    else (sim, [])

/-- Run a sequence of mobile node events, discarding effects. -/
def runMNode (es : List MNodeEvent) (sim : MNodeSim) : MNodeSim :=
  es.foldl (fun a e => (mNodeStep e a).1) sim

/-- A sample person at the world origin. -/
def samplePerson : PersonR := ⟨"A", 0, 0⟩

/-- A desktop node mid-gesture: long-press timer armed in navigate mode,
finger down at screen `(5,5)` over `samplePerson` at time 0. -/
def armedSim : NodeSim :=
  ⟨⟨false, false, false, ⟨5, 5⟩, true, true, Mode.navigate, 0⟩, samplePerson⟩

/-- A mobile node in the same armed situation. -/
def armedMSim : MNodeSim := ⟨⟨false, false, true, true, ⟨5, 5⟩⟩, samplePerson⟩

lemma nodeStep_no_rearm (e : NodeEvent) (sim : NodeSim)
    (hstart : e.isStart = false)
    (hp : sim.node.timerPending = false) (he : sim.node.isEditing = false) :
    (nodeStep e sim).1.node.timerPending = false
    ∧ (nodeStep e sim).1.node.isEditing = false := by
  cases e with
  | nTouchStart t touch mode view o => simp [NodeEvent.isStart] at hstart
  | nTouchMove t touch mode view o =>
    simp only [nodeStep, he, Bool.false_eq_true, if_false]
    split_ifs <;>
      exact ⟨by first | rfl | exact hp, by first | rfl | exact he⟩
  | nTouchEnd t target mode =>
    simp only [nodeStep, he, Bool.false_eq_true, if_false]
    split_ifs <;>
      exact ⟨by first | rfl | exact hp, by first | rfl | exact he⟩
  | nTimerFire =>
    simp only [nodeStep, hp, Bool.false_eq_true, if_false]
    exact ⟨trivial, he⟩

lemma runNode_no_edit (es : List NodeEvent) (sim : NodeSim)
    (hall : ∀ e ∈ es, e.isStart = false)
    (hp : sim.node.timerPending = false) (he : sim.node.isEditing = false) :
    (runNode es sim).node.isEditing = false
    ∧ (runNode es sim).node.timerPending = false := by
  induction es generalizing sim with
  | nil => exact ⟨he, hp⟩
  | cons e es ih =>
    simp only [runNode, List.foldl_cons]
    have h := nodeStep_no_rearm e sim (hall e (by simp)) hp he
    exact ih (nodeStep e sim).1 (fun x hx => hall x (by simp [hx])) h.1 h.2

/-- Claim C4, counterexample.  In `MobilePersonNode` there is no time
window at all: a touch-down at time 0 followed by a move of 15px at time 500
— far beyond the claimed ~200ms window — still cancels the timer and
transitions the node to `Dragging`.  (The mobile handlers never read the
clock; the timestamps in the events record wall-clock time.) -/
theorem c4_counterexample :
    (runMNode [MNodeEvent.mTouchStart 0 ⟨5, 5⟩ false,
               MNodeEvent.mTouchMove 500 ⟨20, 5⟩ false]
        ⟨initialMNode, samplePerson⟩).node.isDragging = true
    ∧ (200:ℚ) ≤ 500 - 0 := by
  constructor
  · norm_num [runMNode, mNodeStep, initialMNode, samplePerson]
  · norm_num

/-- Claim C4, amended.  Desktop `PersonNode`: while the long-press timer is
armed, a touch move whose displacement since touch-down exceeds 10px in
either axis cancels the timer (which then never fires: every following
sequence of non-touch-start events leaves the node out of editing mode), and
transitions to `Dragging` exactly when less than 200ms have elapsed and the
mode is navigate or add-person.  Mobile `MobilePersonNode`: the same move
cancels the timer and always transitions to `Dragging`, with no time
window. -/
theorem c4_long_press_cancellation_amended
    (sim : NodeSim) (t : ℚ) (touch : Point) (mode : Mode) (view : View) (o : Point)
    (hEdit : sim.node.isEditing = false)
    (hDrag : sim.node.isDragging = false)
    (hArm : sim.node.timerVar = true)
    (hMove : 10 < |touch.x - (sim.person.x + sim.node.dragStart.x)|
             ∨ 10 < |touch.y - (sim.person.y + sim.node.dragStart.y)|) :
    (nodeStep (NodeEvent.nTouchMove t touch mode view o) sim).1.node.timerPending = false
    ∧ (nodeStep (NodeEvent.nTouchMove t touch mode view o) sim).1.node.timerVar = false
    ∧ ((nodeStep (NodeEvent.nTouchMove t touch mode view o) sim).1.node.isDragging = true
        ↔ (t - sim.node.touchStartTime < 200
            ∧ (mode = Mode.navigate ∨ mode = Mode.addPerson)))
    ∧ (∀ es, (∀ e ∈ es, NodeEvent.isStart e = false) →
        (runNode es (nodeStep (NodeEvent.nTouchMove t touch mode view o) sim).1).node.isEditing
          = false)
    ∧ (∀ (msim : MNodeSim) (t2 : ℚ) (touch2 : Point),
        msim.node.isEditing = false → msim.node.timerVar = true →
        (10 < |touch2.x - (msim.person.x + msim.node.dragStart.x)|
          ∨ 10 < |touch2.y - (msim.person.y + msim.node.dragStart.y)|) →
        (mNodeStep (MNodeEvent.mTouchMove t2 touch2 false) msim).1.node.timerPending = false
        ∧ (mNodeStep (MNodeEvent.mTouchMove t2 touch2 false) msim).1.node.isDragging = true) := by
  have hbranch :
      (nodeStep (NodeEvent.nTouchMove t touch mode view o) sim).1.node
        = { sim.node with
            timerPending := false
            timerVar := false
            isDragging :=
              if t - sim.node.touchStartTime < 200
                  ∧ (mode = Mode.navigate ∨ mode = Mode.addPerson)
              then true else sim.node.isDragging } := by
    simp only [nodeStep, hEdit, Bool.false_eq_true, if_false]
    split_ifs <;> first | rfl | simp_all
  refine ⟨?_, ?_, ?_, ?_, ?_⟩
  · rw [hbranch]
  · rw [hbranch]
  · rw [hbranch]
    simp only [hDrag]
    split_ifs with hc
    · simp [hc]
    · simp [hc]
  · intro es hall
    refine (runNode_no_edit es _ hall ?_ ?_).1
    · rw [hbranch]
    · rw [hbranch]
      exact hEdit
  · intro msim t2 touch2 hme hmv hmm
    have hb :
        (mNodeStep (MNodeEvent.mTouchMove t2 touch2 false) msim).1.node
          = { msim.node with
              timerPending := false
              timerVar := false
              isDragging := true } := by
      simp only [mNodeStep, hme, Bool.false_eq_true, false_or, if_false]
      split_ifs <;> first | rfl | simp_all
    rw [hb]
    exact ⟨rfl, rfl⟩

theorem c4_witness :
    (nodeStep (NodeEvent.nTouchMove 100 ⟨20, 5⟩ Mode.navigate ⟨1, ⟨0, 0⟩⟩ ⟨0, 0⟩)
        armedSim).1.node.timerVar = false
    ∧ (nodeStep (NodeEvent.nTouchMove 100 ⟨20, 5⟩ Mode.navigate ⟨1, ⟨0, 0⟩⟩ ⟨0, 0⟩)
        armedSim).1.node.isDragging = true
    ∧ (runNode [NodeEvent.nTimerFire]
        (nodeStep (NodeEvent.nTouchMove 100 ⟨20, 5⟩ Mode.navigate ⟨1, ⟨0, 0⟩⟩ ⟨0, 0⟩)
          armedSim).1).node.isEditing = false
    ∧ (mNodeStep (MNodeEvent.mTouchMove 500 ⟨20, 5⟩ false) armedMSim).1.node.isDragging
        = true := by
  have h := c4_long_press_cancellation_amended armedSim 100 ⟨20, 5⟩ Mode.navigate
    ⟨1, ⟨0, 0⟩⟩ ⟨0, 0⟩ rfl rfl rfl
    (Or.inl (by norm_num [armedSim, samplePerson]))
  refine ⟨h.2.1, ?_, ?_, ?_⟩
  · exact h.2.2.1.mpr ⟨by norm_num [armedSim], Or.inl rfl⟩
  · exact h.2.2.2.1 [NodeEvent.nTimerFire] (by simp [NodeEvent.isStart])
  · exact (h.2.2.2.2 armedMSim 500 ⟨20, 5⟩ rfl rfl
      (Or.inl (by norm_num [armedMSim, samplePerson]))).2

/-- Claim C8, counterexample.  In `MobilePersonNode` the long-press timer is
armed whenever the mode is not connect, and its callback enters editing
unconditionally — so holding a press in `add` mode (not navigate) also
enters editing mode. -/
theorem c8_counterexample :
    connectionModeOf Mode.addPerson = false
    ∧ (runMNode [MNodeEvent.mTouchStart 0 ⟨5, 5⟩ false,
                 MNodeEvent.mTimerFire]
        ⟨initialMNode, samplePerson⟩).node.isEditing = true
    ∧ Mode.addPerson ≠ Mode.navigate := by
  refine ⟨rfl, ?_, by simp⟩
  norm_num [runMNode, mNodeStep, initialMNode, samplePerson]

/-- Claim C8, amended.  Desktop `PersonNode`: when the long-press timer
fires while still pending, the node enters editing exactly when the mode
captured at arm time is navigate; in that case exactly one enter-edit effect
is emitted, the person position is untouched, and a second fire is a no-op.
Mobile `MobilePersonNode`: the fire enters editing regardless of the mode it
was armed in (arming only requires a non-connect mode), again exactly once
and with no position update. -/
theorem c8_long_press_edit_amended (sim : NodeSim)
    (hEdit : sim.node.isEditing = false)
    (hPend : sim.node.timerPending = true) :
    (sim.node.armedMode = Mode.navigate →
      (nodeStep NodeEvent.nTimerFire sim).1.node.isEditing = true
      ∧ (nodeStep NodeEvent.nTimerFire sim).2 = [NodeEffect.enterEdit]
      ∧ (nodeStep NodeEvent.nTimerFire ((nodeStep NodeEvent.nTimerFire sim).1)).2 = []
      ∧ (nodeStep NodeEvent.nTimerFire sim).1.person = sim.person)
    ∧ (sim.node.armedMode ≠ Mode.navigate →
      (nodeStep NodeEvent.nTimerFire sim).1.node.isEditing = false
      ∧ (nodeStep NodeEvent.nTimerFire sim).2 = [])
    ∧ (∀ (msim : MNodeSim), msim.node.timerPending = true →
      (mNodeStep MNodeEvent.mTimerFire msim).1.node.isEditing = true
      ∧ (mNodeStep MNodeEvent.mTimerFire msim).2 = [MNodeEffect.enterEdit]
      ∧ (mNodeStep MNodeEvent.mTimerFire ((mNodeStep MNodeEvent.mTimerFire msim).1)).2 = []
      ∧ (mNodeStep MNodeEvent.mTimerFire msim).1.person = msim.person) := by
  refine ⟨?_, ?_, ?_⟩
  · intro hnav
    simp only [nodeStep, hPend, hnav, if_true]
    norm_num
  · intro hnn
    simp only [nodeStep, hPend, if_true]
    rw [if_neg hnn]
    exact ⟨hEdit, rfl⟩
  · intro msim hmp
    simp only [mNodeStep, hmp, if_true]
    norm_num

theorem c8_witness :
    (nodeStep NodeEvent.nTimerFire armedSim).1.node.isEditing = true
    ∧ (nodeStep NodeEvent.nTimerFire armedSim).2 = [NodeEffect.enterEdit]
    ∧ (nodeStep NodeEvent.nTimerFire armedSim).1.person = armedSim.person
    ∧ (mNodeStep MNodeEvent.mTimerFire armedMSim).1.node.isEditing = true := by
  have h := c8_long_press_edit_amended armedSim rfl rfl
  have hn := h.1 rfl
  exact ⟨hn.1, hn.2.1, hn.2.2.2, (h.2.2 armedMSim rfl).1⟩

/-- Relationship type. -/
inductive RelType
  | parent
  | spouse
  | child
deriving DecidableEq, Repr

/-- A stored relationship; `fromId` and `toId` are the `from` and `to`
fields of the source. -/
structure Relationship where
  id : String
  rtype : RelType
  fromId : String
  toId : String
deriving DecidableEq, Repr

/-- The stored family tree: `people` and `relationships`. -/
structure FamilyTree where
  people : List PersonR
  relationships : List Relationship
deriving DecidableEq, Repr

/-- The updater applied by the mobile app's `deletePerson`: drop the person
with the given id and every relationship whose `from` or `to` equals it. -/
def deletePerson (pid : String) (t : FamilyTree) : FamilyTree :=
  { people := t.people.filter (fun p => p.id != pid)
    relationships := t.relationships.filter (fun r => r.fromId != pid && r.toId != pid) }

/-- An in-flight connection draft: `connectionStart` in the mobile app. -/
structure ConnStart where
  personId : String
  x : ℚ
  y : ℚ
deriving DecidableEq, Repr

/-- Application-level state of `MobileFamilyTreeApp` that the gesture claims
touch: tree, selection, mode, connection type and draft, view scale and
offset. -/
structure MobileAppState where
  familyTree : FamilyTree
  selectedPersonId : Option String
  mode : Mode
  connectionType : RelType
  connectionStart : Option ConnStart
  scale : ℚ
  offset : Point
deriving DecidableEq, Repr

/-- `handlePersonSelect` of the mobile app.  `freshId` stands for the
`Date.now().toString()` used as the new relationship id.  In the
start-connection branch the source dereferences
`familyTree.people.find(...)` without a null check; a missing id would throw
there, so the `none` case (unreachable for rendered nodes) is modelled as
leaving the draft unset. -/
def handlePersonSelect (freshId : String) (pid : String) (s : MobileAppState) :
    MobileAppState :=
  let s1 :=
    if s.mode = Mode.connect then
      match s.connectionStart with
      | some c =>
        if c.personId ≠ pid then
          { s with
              familyTree := { s.familyTree with
                relationships := s.familyTree.relationships
                  ++ [⟨freshId, s.connectionType, c.personId, pid⟩] }
              connectionStart := none }
        else s
      | none =>
        match s.familyTree.people.find? (fun p => p.id == pid) with
        | some pers =>
          { s with connectionStart := some ⟨pid, pers.x + 60, pers.y + 30⟩ }
        | none => s
    else s
  { s1 with selectedPersonId := some pid }

/-- The whole mobile system as far as a mode switch can see it: the app
state plus the ephemeral per-node gesture states and the canvas pan/pinch
flags living in the child components. -/
structure MobileSystemState where
  app : MobileAppState
  nodeStates : List (String × MNodeState)
  canvasPanning : Bool
  canvasZooming : Bool
deriving DecidableEq, Repr

/-- A mode-switch: the toolbar buttons of `MobileFamilyTreeApp` call exactly
`setMode(m)` and nothing else. -/
def switchMode (m : Mode) (sys : MobileSystemState) : MobileSystemState :=
  { sys with app := { sys.app with mode := m } }

/-- A small example tree with two people and no relationships. -/
def exampleTree : FamilyTree := ⟨[⟨"A", 0, 0⟩, ⟨"B", 200, 0⟩], []⟩

/-- An example draft out of person `A`. -/
def exampleDraft : ConnStart := ⟨"A", 60, 30⟩

/-- Connect mode with a draft in flight. -/
def exampleApp : MobileAppState :=
  ⟨exampleTree, none, Mode.connect, RelType.parent, some exampleDraft, 1, ⟨0, 0⟩⟩

/-- The example system mid-gesture. -/
def exampleSystem : MobileSystemState :=
  ⟨exampleApp, [("A", initialMNode)], true, false⟩

/-- Claim C3, counterexample.  With a connection draft in flight, switching
the mode to navigate leaves the draft exactly as it was — it is not
discarded, contradicting the claim that a mode change resets gesture state
and discards the draft. -/
theorem c3_counterexample :
    (switchMode Mode.navigate exampleSystem).app.connectionStart = some exampleDraft
    ∧ (switchMode Mode.navigate exampleSystem).app.connectionStart ≠ none
    ∧ exampleSystem.app.mode = Mode.connect := by
  refine ⟨rfl, ?_, rfl⟩
  simp [switchMode, exampleSystem, exampleApp]

/-- Claim C3, amended.  Changing the interaction mode updates only the mode
field: the connection draft, the selection, the stored tree (hence every
person's committed `x`,`y`), the per-node gesture states and the canvas
pan/pinch flags are all left untouched.  In particular no position is
mutated — but no in-flight gesture is reset to `Idle` and no draft is
discarded either. -/
theorem c3_mode_switch_amended (m : Mode) (sys : MobileSystemState) :
    (switchMode m sys).app.mode = m
    ∧ (switchMode m sys).app.connectionStart = sys.app.connectionStart
    ∧ (switchMode m sys).app.familyTree = sys.app.familyTree
    ∧ (switchMode m sys).app.selectedPersonId = sys.app.selectedPersonId
    ∧ (switchMode m sys).nodeStates = sys.nodeStates
    ∧ (switchMode m sys).canvasPanning = sys.canvasPanning
    ∧ (switchMode m sys).canvasZooming = sys.canvasZooming :=
  ⟨rfl, rfl, rfl, rfl, rfl, rfl, rfl⟩

/-- Claim C9: cascade delete.  `deletePerson(id)` keeps exactly the people
whose id differs from `id` and exactly the relationships with both
endpoints different from `id`, leaving everything else unchanged — so no
surviving relationship references the deleted person. -/
theorem c9_cascade_delete (t : FamilyTree) (pid : String) :
    (∀ p : PersonR, p ∈ (deletePerson pid t).people ↔ p ∈ t.people ∧ p.id ≠ pid)
    ∧ (∀ r : Relationship, r ∈ (deletePerson pid t).relationships
        ↔ r ∈ t.relationships ∧ r.fromId ≠ pid ∧ r.toId ≠ pid) := by
  constructor
  · intro p
    simp [deletePerson, List.mem_filter]
  · intro r
    simp [deletePerson, List.mem_filter, and_assoc]

/-- A desktop node mid connection drag out of `samplePerson`. -/
def connSim : NodeSim :=
  ⟨⟨false, true, false, ⟨75, 50⟩, false, false, Mode.connect, 0⟩, samplePerson⟩

/-- Claim C5: connection self-loop exclusion.  In the mobile app every
relationship present after `handlePersonSelect` is either an old one or has
distinct endpoints (a new relationship is only appended when a draft exists
whose source differs from the tapped target); tapping the draft's own source
leaves the relationships unchanged.  In the desktop `PersonNode`, releasing
a connection drag over the source node itself emits only
`connectionDragEnd` — no target-selection, hence no relationship. -/
theorem c5_no_self_loop (s : MobileAppState) (freshId pid : String) :
    (∀ r ∈ (handlePersonSelect freshId pid s).familyTree.relationships,
      r ∈ s.familyTree.relationships ∨ (r.fromId ≠ r.toId ∧ r.toId = pid))
    ∧ (∀ c : ConnStart, s.connectionStart = some c → c.personId = pid →
        (handlePersonSelect freshId pid s).familyTree.relationships
          = s.familyTree.relationships)
    ∧ (∀ (sim : NodeSim) (t : ℚ) (mode : Mode),
        sim.node.isEditing = false → sim.node.isDragging = false →
        sim.node.isConnecting = true →
        (nodeStep (NodeEvent.nTouchEnd t (some sim.person.id) mode) sim).2
          = [NodeEffect.connectionDragEnd]) := by
  refine ⟨?_, ?_, ?_⟩
  · intro r hr
    dsimp only [handlePersonSelect] at hr
    split at hr
    · split at hr
      · rename_i c heq
        split at hr
        · rename_i hne
          simp only [List.mem_append, List.mem_singleton] at hr
          rcases hr with hr | hr
          · exact Or.inl hr
          · subst hr
            exact Or.inr ⟨hne, rfl⟩
        · exact Or.inl hr
      · split at hr
        · exact Or.inl hr
        · exact Or.inl hr
    · exact Or.inl hr
  · intro c hcs hcp
    have hc : ¬ c.personId ≠ pid := by simp [hcp]
    by_cases hm : s.mode = Mode.connect
    · dsimp only [handlePersonSelect]
      rw [if_pos hm, hcs]
      dsimp only
      rw [if_neg hc]
    · dsimp only [handlePersonSelect]
      rw [if_neg hm]
  · intro sim t mode hEdit hDrag hConn
    simp [nodeStep, hEdit, hDrag, hConn]

theorem c5_witness :
    exampleApp.connectionStart = some exampleDraft
    ∧ exampleDraft.personId = "A"
    ∧ (handlePersonSelect "99" "A" exampleApp).familyTree.relationships
        = exampleApp.familyTree.relationships
    ∧ (nodeStep (NodeEvent.nTouchEnd 100 (some connSim.person.id) Mode.connect) connSim).2
        = [NodeEffect.connectionDragEnd] := by
  have h := c5_no_self_loop exampleApp "99" "A"
  exact ⟨rfl, rfl, h.2.1 exampleDraft rfl rfl, h.2.2 connSim 100 Mode.connect rfl rfl rfl⟩
